import Mathlib

/-!
Verification of the multi-echelon inventory simulation engine shared by the
three game variants in this repository (Beer Game, fast-food distribution
center, semiconductor supply chain).  Each variant is embedded shallowly:
the per-period settlement arithmetic, the pipeline bookkeeping and the
decision-policy fallbacks are translated into executable Lean functions over
integers (JS numbers in these code paths are integer-valued), and the claimed
invariants are proved or refuted about those functions.
-/

namespace BeerGameSim

/-- CONFIG.shippingDelay in BeerGame.jsx: weeks for goods to travel downstream. -/
def shippingDelay : ℤ := 2

/-- CONFIG.orderDelay in BeerGame.jsx: weeks for orders to travel upstream. -/
def orderDelay : ℤ := 1

/-- CONFIG.totalWeeks in BeerGame.jsx. -/
def totalWeeks : ℕ := 20

/-- CONFIG.costHolding in BeerGame.jsx. -/
def costHolding : ℚ := 1/2

/-- CONFIG.costBacklog in BeerGame.jsx. -/
def costBacklog : ℚ := 1

/-- The four supply-chain roles of the ROLES array, in array order
(index 0 = retailer, 3 = manufacturer). -/
inductive Role
  | retailer
  | wholesaler
  | distributor
  | manufacturer
deriving DecidableEq, Repr

/-- ROLES array indexing: index of each role. -/
def Role.index : Role → ℕ
  | .retailer => 0
  | .wholesaler => 1
  | .distributor => 2
  | .manufacturer => 3

/-- One history entry as committed by processTurn (week, roleId, inventory,
backlog, orderPlaced, shipped); cost omitted where not needed. -/
structure HistoryEntry where
  week : ℤ
  roleId : Role
  inventory : ℤ
  backlog : ℤ
  orderPlaced : ℤ
  shipped : ℤ
deriving DecidableEq, Repr

/-- getHistoryEntry: history.find(h => h.week === week && h.roleId === roleId). -/
def getHistoryEntry (history : List HistoryEntry) (week : ℤ) (roleId : Role) :
    Option HistoryEntry :=
  history.find? (fun h => decide (h.week = week ∧ h.roleId = roleId))

/-- getIncomingShipment (BeerGame.jsx lines 364-377): look up what arrives this
week.  The manufacturer (roleIndex 3) looks up its OWN orderPlaced from
shippingDelay weeks ago; everyone else looks up what the upstream role shipped
shippingDelay weeks ago; a missing entry defaults to 4. -/
def getIncomingShipment (history : List HistoryEntry) (roleIndex : ℕ) (week : ℤ) : ℤ :=
  let shipmentDelayWeek := week - shippingDelay
  if roleIndex = 3 then
    match getHistoryEntry history shipmentDelayWeek Role.manufacturer with
    | some selfHistory => selfHistory.orderPlaced
    | none => 4
  else
    let upstreamRole : Role :=
      if roleIndex = 0 then .wholesaler else if roleIndex = 1 then .distributor else .manufacturer
    match getHistoryEntry history shipmentDelayWeek upstreamRole with
    | some upstreamHistory => upstreamHistory.shipped
    | none => 4

/-- Result of the settlement arithmetic inside processTurn. -/
structure TurnResult where
  shipped : ℤ
  inventory : ℤ
  backlog : ℤ
  orderPlaced : ℤ
  cost : ℚ
deriving DecidableEq, Repr

/-- The settlement core of processTurn (BeerGame.jsx lines 421-453):
totalAvailable = prior inventory + incoming shipment, totalToShip = incoming
demand + prior backlog, actuallyShipped = min of the two, and the new entry
records the leftovers and the order placed. -/
def processTurn (prevInventory prevBacklog shipmentReceived demandReceived
    orderAmount : ℤ) : TurnResult :=
  let totalAvailable := prevInventory + shipmentReceived
  let totalToShip := demandReceived + prevBacklog
  let actuallyShipped := min totalAvailable totalToShip
  let newInventory := totalAvailable - actuallyShipped
  let newBacklog := totalToShip - actuallyShipped
  { shipped := actuallyShipped
    inventory := newInventory
    backlog := newBacklog
    orderPlaced := orderAmount
    cost := (newInventory : ℚ) * costHolding + (newBacklog : ℚ) * costBacklog }

/-- submitTurn input validation (BeerGame.jsx lines 468-473): a human order is
dropped (never reaches processTurn) when it parses below zero. -/
def submitTurnGate (orderAmount : ℤ) : Option ℤ :=
  if orderAmount < 0 then none else some orderAmount

/-- The AI play path (BeerGame.jsx lines 509-528): the decision returned by
getAITurn is handed to processTurn unchanged - processTurn(decision.order). -/
def aiOrderToStateMachine (decisionOrder : ℤ) : ℤ :=
  decisionOrder

end BeerGameSim

namespace McD

/-- PRODUCTION_DELAY in the fast-food variant (src/unnamed/part_000). -/
def productionDelay : ℤ := 2

/-- LEAD_TIME in the fast-food variant. -/
def leadTime : ℤ := 2

/-- MAX_WEEKS in the fast-food variant. -/
def maxWeeks : ℕ := 20

/-- One productionQueue entry: { weekArrives, amount }. -/
structure QueueEntry where
  weekArrives : ℤ
  amount : ℤ
deriving DecidableEq, Repr

/-- Internal state of an AI supplier (generateSupplierState fields used by the
settlement logic). -/
structure SupplierState where
  inventory : ℤ
  backlog : ℤ
  productionQueue : List QueueEntry
  lastOrderReceived : ℤ
deriving DecidableEq, Repr

/-- productionQueue.find(p => p.weekArrives === w): the FIRST entry due at w. -/
def findArriving (queue : List QueueEntry) (w : ℤ) : Option QueueEntry :=
  queue.find? (fun p => decide (p.weekArrives = w))

/-- Inventory after step 1 of processSupplier: receive the production that
arrives (the first queue entry found with weekArrives = week + 1). -/
def availableAfterArrival (state : SupplierState) (week : ℤ) : ℤ :=
  match findArriving state.productionQueue (week + 1) with
  | some arrivingProduction => state.inventory + arrivingProduction.amount
  | none => state.inventory

/-- processSupplier (src/unnamed/part_000 lines 212-240): receive arriving
production, queue the new production order for week + 1 + PRODUCTION_DELAY,
then ship min-style: if inventory covers totalOwed ship it all and clear the
backlog, otherwise ship the whole inventory and backlog the rest.
Returns (newState, shippedAmount). -/
def processSupplier (week : ℤ) (state : SupplierState)
    (productionAmount playerOrderAmount : ℤ) : SupplierState × ℤ :=
  let inv := availableAfterArrival state week
  let queue := state.productionQueue ++ [⟨week + 1 + productionDelay, productionAmount⟩]
  let totalOwed := playerOrderAmount + state.backlog
  if inv ≥ totalOwed then
    (⟨inv - totalOwed, 0, queue, playerOrderAmount⟩, totalOwed)
  else
    (⟨0, totalOwed - inv, queue, playerOrderAmount⟩, inv)

end McD

namespace Nvidia

/-- MAX_WEEKS in src/src/nvidiagame/NvidiaGame.jsx. -/
def maxWeeks : ℕ := 20

/-- LEAD_TIME in NvidiaGame.jsx: weeks for both stages. -/
def leadTime : ℕ := 2

/-- COMPONENT_CAPACITY_PER_WEEK in NvidiaGame.jsx: the supplier hard cap on an
order. -/
def componentCapacityPerWeek : ℤ := 2000

/-- One pipeline entry: { arrivalWeek, amount }. -/
structure PipelineEntry where
  arrivalWeek : ℕ
  amount : ℤ
deriving DecidableEq, Repr

/-- pipeline.filter(p => p.arrivalWeek === week).reduce((sum, p) => sum + p.amount, 0):
the total quantity due at the given week. -/
def collectDue (pipeline : List PipelineEntry) (week : ℕ) : ℤ :=
  ((pipeline.filter (fun p => decide (p.arrivalWeek = week))).map (fun p => p.amount)).sum

/-- Total quantity ever scheduled into a pipeline. -/
def totalScheduled (pipeline : List PipelineEntry) : ℤ :=
  (pipeline.map (fun p => p.amount)).sum

/-- Supplier state in NvidiaGame.jsx (fields used by updateSupplier). -/
structure SupplierState where
  inventory : ℤ
  backlog : ℤ
  pipeline : List PipelineEntry
  lastOrder : ℤ
  lastShipped : ℤ
deriving DecidableEq, Repr

/-- updateSupplier (NvidiaGame.jsx lines 206-237): receive the raw materials
due this week, fulfill playerOrder + backlog up to the available inventory, and
append the new AI production order due at week + LEAD_TIME.  The consumed
pipeline entries are left in place: they are only ever counted at their own
arrival week. -/
def updateSupplier (week : ℕ) (sup : SupplierState) (playerOrder aiOrder : ℤ) :
    SupplierState :=
  let arrivingRaw := collectDue sup.pipeline week
  let availableInventory := sup.inventory + arrivingRaw
  let totalDemand := playerOrder + sup.backlog
  let shippedToPlayer := min availableInventory totalDemand
  let newBacklog := totalDemand - shippedToPlayer
  let newInventory := availableInventory - shippedToPlayer
  { inventory := newInventory
    backlog := newBacklog
    pipeline := sup.pipeline ++ [⟨week + leadTime, aiOrder⟩]
    lastOrder := aiOrder
    lastShipped := shippedToPlayer }

/-- Player component inventories (CoWoS and HBM). -/
structure PlayerInv where
  cowos : ℤ
  hbm : ℤ
deriving DecidableEq, Repr

/-- Result of the player settlement phase of finalizeTurn. -/
structure PlayerResult where
  inventory : PlayerInv
  fulfilled : ℤ
  backlog : ℤ
deriving DecidableEq, Repr

/-- Player phase of finalizeTurn (NvidiaGame.jsx lines 249-274): add arrivals
per kind, then production is capped by min(cowos, hbm), fulfilled =
min(maxProduction, market demand + prior backlog), and the SAME fulfilled
quantity is subtracted from both component inventories. -/
def playerSettle (inv : PlayerInv) (arrivingCowos arrivingHbm marketDemand
    prevBacklog : ℤ) : PlayerResult :=
  let currentInventory : PlayerInv := ⟨inv.cowos + arrivingCowos, inv.hbm + arrivingHbm⟩
  let totalPlayerDemand := marketDemand + prevBacklog
  let maxProduction := min currentInventory.cowos currentInventory.hbm
  let fulfilled := min maxProduction totalPlayerDemand
  { inventory := ⟨currentInventory.cowos - fulfilled, currentInventory.hbm - fulfilled⟩
    fulfilled := fulfilled
    backlog := totalPlayerDemand - fulfilled }

/-- A decision returned by a policy: order quantity and rationale string. -/
structure Decision where
  order : ℤ
  reasoning : String
deriving DecidableEq, Repr

/-- The possible outcomes of the remote call underlying getAITurn: the key is
missing, the call succeeds with a parsed order and reasoning, or the call (or
its JSON parsing) fails. -/
inductive AIOutcome
  | noKey
  | success (order : ℤ) (reasoning : String)
  | failure
deriving DecidableEq, Repr

/-- getAITurn (NvidiaGame.jsx lines 47-104) as a function of the remote-call
outcome.  No key: order = incomingDemand.  Success: the safety clamp
Math.max(0, Math.min(result.order, COMPONENT_CAPACITY_PER_WEEK)).  Failure
(catch block, lines 98-103): order = incomingDemand + Math.floor(backlog * 0.5)
with NO clamp. -/
def getAITurn (incomingDemand backlog : ℤ) : AIOutcome → Decision
  | .noKey => ⟨incomingDemand, "API Key missing. Matching demand."⟩
  | .success order reasoning => ⟨max 0 (min order componentCapacityPerWeek), reasoning⟩
  | .failure => ⟨incomingDemand + ⌊(backlog : ℚ) * (1/2)⌋, "Connection failed. Panic ordering."⟩

/-- validateOrder (NvidiaGame.jsx lines 150-155): an order value is accepted
(empty error string) iff it is neither negative nor above the capacity cap. -/
def validateOrder (val : ℤ) : Bool :=
  decide (0 ≤ val ∧ val ≤ componentCapacityPerWeek)

end Nvidia

namespace McD

/-- A decision returned by a policy in the fast-food variant. -/
structure Decision where
  order : ℤ
  reasoning : String
deriving DecidableEq, Repr

/-- The possible outcomes of the remote call underlying getAITurn. -/
inductive AIOutcome
  | noKey
  | success (order : ℤ) (reasoning : String)
  | failure
deriving DecidableEq, Repr

/-- getAITurn (src/unnamed/part_000 lines 97-152) as a function of the
remote-call outcome.  No key: order-up-to fallback with
target = lastOrderReceived * 1.5 || 200 and
order = Math.round(Math.max(0, target - inventory + backlog)).
Success: parsed result returned unchanged.  Failure (catch block, lines
148-151): order = currentDemandFromPlayer. -/
def getAITurn (state : SupplierState) (currentDemandFromPlayer : ℤ) :
    AIOutcome → Decision
  | .noKey =>
    let target : ℚ := if state.lastOrderReceived = 0 then 200
      else (3/2) * (state.lastOrderReceived : ℚ)
    let order : ℚ := max 0 (target - (state.inventory : ℚ) + (state.backlog : ℚ))
    ⟨⌊order + 1/2⌋, "API Key missing. Fallback strategy: Target inventory maintenance."⟩
  | .success order reasoning => ⟨order, reasoning⟩
  | .failure => ⟨currentDemandFromPlayer, "AI Brain Freeze (Error). Matching demand."⟩

/-- Service-level ratio (resolveWeek lines 256-259):
shippedAmount / tysonDemandTotal when the total is positive, else 1. -/
def serviceLevel (shippedAmount tysonDemandTotal : ℤ) : ℚ :=
  if tysonDemandTotal > 0 then (shippedAmount : ℚ) / (tysonDemandTotal : ℚ) else 1

/-- Result of the combined-pool (Tyson) supplier resolution. -/
structure TysonResult where
  newState : SupplierState
  shippedAmount : ℤ
  shippedBeef : ℤ
  shippedFish : ℤ
deriving DecidableEq, Repr

/-- The combined-pool allocation of resolveWeek (part_000 lines 243-277):
Tyson is resolved as one pooled supplier on playerOrder.beef +
playerOrder.fish, then tysonDemandTotal = beef + fish + prior backlog, the
service level = shippedAmount / tysonDemandTotal, and the per-kind shipments
are Math.floor(order_kind * serviceLevel). -/
def tysonResolve (week : ℤ) (tysonState : SupplierState)
    (tysonProduction beefOrder fishOrder : ℤ) : TysonResult :=
  let r := processSupplier week tysonState tysonProduction (beefOrder + fishOrder)
  let tysonDemandTotal := beefOrder + fishOrder + tysonState.backlog
  let sl := serviceLevel r.2 tysonDemandTotal
  { newState := r.1
    shippedAmount := r.2
    shippedBeef := ⌊(beefOrder : ℚ) * sl⌋
    shippedFish := ⌊(fishOrder : ℚ) * sl⌋ }

/-- A triple of per-resource-kind quantities (buns, beef, fish). -/
structure Triple where
  buns : ℤ
  beef : ℤ
  fish : ℤ
deriving DecidableEq, Repr

/-- The per-item fulfillment step of resolveWeek (part_000 lines 312-320):
given the post-arrival inventory and the total need for ONE resource kind,
either cover the need fully or ship everything and backlog the rest.
Returns (newInventory, newBacklog). -/
def fulfillItem (inv need : ℤ) : ℤ × ℤ :=
  if inv ≥ need then (inv - need, 0) else (0, need - inv)

/-- The player (DC) settlement of resolveWeek (part_000 lines 290-320): per
item, inventory is increased by the arriving shipment, the total need is
current demand + prior backlog, and fulfillItem settles each kind with a
forEach over the three kinds. -/
def playerResolve (inventory backlog demand arriving : Triple) : Triple × Triple :=
  let bunsR := fulfillItem (inventory.buns + arriving.buns) (demand.buns + backlog.buns)
  let beefR := fulfillItem (inventory.beef + arriving.beef) (demand.beef + backlog.beef)
  let fishR := fulfillItem (inventory.fish + arriving.fish) (demand.fish + backlog.fish)
  (⟨bunsR.1, beefR.1, fishR.1⟩, ⟨bunsR.2, beefR.2, fishR.2⟩)

/-- All three components of a triple are non-negative. -/
def Triple.Nonneg (t : Triple) : Prop :=
  0 ≤ t.buns ∧ 0 ≤ t.beef ∧ 0 ≤ t.fish

instance (t : Triple) : Decidable t.Nonneg := by
  unfold Triple.Nonneg
  infer_instance

/-- The quantity actually added to inventory by the find-based arrival lookup
of processSupplier (the amount of the first due entry, or 0 when none). -/
def findReleaseAmount (queue : List QueueEntry) (w : ℤ) : ℤ :=
  match findArriving queue w with
  | some p => p.amount
  | none => 0

/-- The total quantity due at week w (what a sum-based collection would
release). -/
def sumDue (queue : List QueueEntry) (w : ℤ) : ℤ :=
  ((queue.filter (fun p => decide (p.weekArrives = w))).map (fun p => p.amount)).sum

end McD

namespace P001

/-- ORDER_CAP_PER_COMPONENT in src/unnamed/part_001. -/
def orderCap : ℤ := 500

/-- LEAD_TIME in part_001. -/
def leadTime : ℕ := 2

/-- MAX_WEEKS in part_001. -/
def maxWeeks : ℕ := 20

/-- One incomingProduction entry: { arrivalWeek, amount }. -/
structure ProdEntry where
  arrivalWeek : ℕ
  amount : ℤ
deriving DecidableEq, Repr

/-- Supplier state in part_001: inventory, backlog owed to the user, and the
incoming production pipeline. -/
structure SupplierState where
  inventory : ℤ
  backlog : ℤ
  incomingProduction : List ProdEntry
deriving DecidableEq, Repr

/-- A policy decision in part_001. -/
structure Decision where
  order : ℤ
  reasoning : String
deriving DecidableEq, Repr

/-- The possible outcomes of the remote call underlying getAITurn. -/
inductive AIOutcome
  | noKey
  | success (order : ℤ) (reasoning : String)
  | failure
deriving DecidableEq, Repr

/-- getAITurn (part_001 lines 63-112) as a function of the remote-call
outcome.  No key: order = Math.max(0, incomingDemand - inventory + backlog).
Success: parsed result returned unchanged.  Failure (catch block, lines
104-111): target 200, needed = max(0, (target + backlog + incomingDemand) -
(inventory + pipeline)), order = Math.min(needed, ORDER_CAP_PER_COMPONENT). -/
def getAITurn (currentStats : SupplierState) (incomingDemand : ℤ) :
    AIOutcome → Decision
  | .noKey =>
    ⟨max 0 (incomingDemand - currentStats.inventory + currentStats.backlog),
      "API Key missing. Defaulting to match demand."⟩
  | .success order reasoning => ⟨order, reasoning⟩
  | .failure =>
    let pipeline := ((currentStats.incomingProduction.map (fun p => p.amount)).sum)
    let needed := max 0 ((200 + currentStats.backlog + incomingDemand) -
      (currentStats.inventory + pipeline))
    ⟨min needed orderCap, "Connection failed. Using heuristic fallback."⟩

/-- incomingProduction.filter(p => p.arrivalWeek === week) summed: the
production quantity a supplier receives this week. -/
def collectArriving (q : List ProdEntry) (week : ℕ) : ℤ :=
  ((q.filter (fun p => decide (p.arrivalWeek = week))).map (fun p => p.amount)).sum

/-- processSupplier (part_001 lines 197-234): sum the production entries
arriving this week into inventory and drop them from the pipeline, ship
min(userOrder + backlog, inventory) to the user, and append the new AI
production order (when positive) due at week + LEAD_TIME.
Returns (newState, canShip). -/
def processSupplier (week : ℕ) (userOrder : ℤ) (aiOrder : ℤ)
    (st : SupplierState) : SupplierState × ℤ :=
  let arriving := collectArriving st.incomingProduction week
  let supplierPending := st.incomingProduction.filter (fun p => decide (p.arrivalWeek ≠ week))
  let inv := st.inventory + arriving
  let totalOwed := userOrder + st.backlog
  let canShip := min totalOwed inv
  let pending := if aiOrder > 0 then supplierPending ++ [⟨week + leadTime, aiOrder⟩]
    else supplierPending
  (⟨inv - canShip, totalOwed - canShip, pending⟩, canShip)

end P001

namespace Runs

/-- Orchestrator state common to the four variants: the current week counter
and the game-over flag. -/
structure OrchState where
  week : ℕ
  over : Bool
deriving DecidableEq, Repr

/-- The fast-food variant per-turn advance: startTurnSequence (part_000 line
163) refuses to run when week >= MAX_WEEKS, and resolveWeek (lines 333-373)
advances to nextWeek = week + 1 and sets gameOver when nextWeek = MAX_WEEKS.
Returns the week resolved by this turn and the new state, or none when the
turn is blocked. -/
def mcdStep (s : OrchState) : Option (ℕ × OrchState) :=
  if s.over ∨ s.week ≥ McD.maxWeeks then none
  else some (s.week, ⟨s.week + 1, decide (s.week + 1 = McD.maxWeeks)⟩)

/-- The Beer Game week advance: the week is played to completion, then
startNextWeek (BeerGame.jsx lines 536-544) moves to GAME_OVER when
currentWeek >= totalWeeks, else increments the week. -/
def beerStep (s : OrchState) : Option (ℕ × OrchState) :=
  if s.over then none
  else some (s.week,
    if s.week ≥ BeerGameSim.totalWeeks then ⟨s.week, true⟩ else ⟨s.week + 1, false⟩)

/-- The NvidiaGame week advance: finalizeTurn (NvidiaGame.jsx lines 315-320)
always resolves the current week, then enters END when week >= MAX_WEEKS,
else increments. -/
def nvidiaStep (s : OrchState) : Option (ℕ × OrchState) :=
  if s.over then none
  else some (s.week,
    if s.week ≥ Nvidia.maxWeeks then ⟨s.week, true⟩ else ⟨s.week + 1, false⟩)

/-- The part_001 week advance: resolveWeek (lines 165-284) returns early when
week > MAX_WEEKS, otherwise resolves the week and enters gameover exactly when
week = MAX_WEEKS, else increments. -/
def p001Step (s : OrchState) : Option (ℕ × OrchState) :=
  if s.over ∨ s.week > P001.maxWeeks then none
  else some (s.week,
    if s.week = P001.maxWeeks then ⟨s.week, true⟩ else ⟨s.week + 1, false⟩)

/-- Run an orchestrator from a state, collecting the list of weeks resolved,
with fuel bounding the number of turns attempted. -/
def resolvedWeeks (step : OrchState → Option (ℕ × OrchState)) :
    ℕ → OrchState → List ℕ
  | 0, _ => []
  | fuel + 1, s =>
    match step s with
    | none => []
    | some (w, s2) => w :: resolvedWeeks step fuel s2

/-- All four variants start at week 1 with the game not over. -/
def initState : OrchState := ⟨1, false⟩

end Runs

/-- C1: conservation and min-shipping of the per-period transition.  In the
Beer Game settlement (processTurn) and in the fast-food supplier settlement
(processSupplier), with available = prior inventory + arriving supply and
total owed = incoming order + prior backlog, the quantity shipped is exactly
min(available, total owed), and new inventory + shipped = available while
new backlog + shipped = total owed: no quantity is created or destroyed. -/
theorem settlement_conserves_quantities :
    (∀ prevInventory prevBacklog shipmentReceived demandReceived orderAmount : ℤ,
      let r := BeerGameSim.processTurn prevInventory prevBacklog shipmentReceived
        demandReceived orderAmount
      r.shipped = min (prevInventory + shipmentReceived) (demandReceived + prevBacklog) ∧
      r.inventory + r.shipped = prevInventory + shipmentReceived ∧
      r.backlog + r.shipped = demandReceived + prevBacklog) ∧
    (∀ (week : ℤ) (state : McD.SupplierState) (productionAmount playerOrderAmount : ℤ),
      let r := McD.processSupplier week state productionAmount playerOrderAmount
      r.2 = min (McD.availableAfterArrival state week) (playerOrderAmount + state.backlog) ∧
      r.1.inventory + r.2 = McD.availableAfterArrival state week ∧
      r.1.backlog + r.2 = playerOrderAmount + state.backlog) := by
  constructor
  · intro prevInventory prevBacklog shipmentReceived demandReceived orderAmount
    refine ⟨rfl, ?_, ?_⟩ <;> simp [BeerGameSim.processTurn]
  · intro week state productionAmount playerOrderAmount
    simp only [McD.processSupplier]
    by_cases h : McD.availableAfterArrival state week ≥ playerOrderAmount + state.backlog
    · simp only [if_pos h]
      refine ⟨(min_eq_right h).symm, by ring, by ring⟩
    · simp only [if_neg h]
      push_neg at h
      refine ⟨(min_eq_left h.le).symm, by ring, by ring⟩

/-- C2: non-negativity of the per-period transition.  With non-negative
incoming order, arriving supply, prior inventory and prior backlog, the
inventory and backlog produced by the Beer Game settlement, the fast-food DC
per-item settlement (for every resource kind), and the NvidiaGame supplier
settlement are all non-negative. -/
theorem settlement_nonnegative :
    (∀ prevInventory prevBacklog shipmentReceived demandReceived orderAmount : ℤ,
      0 ≤ prevInventory → 0 ≤ prevBacklog → 0 ≤ shipmentReceived → 0 ≤ demandReceived →
      0 ≤ (BeerGameSim.processTurn prevInventory prevBacklog shipmentReceived
        demandReceived orderAmount).inventory ∧
      0 ≤ (BeerGameSim.processTurn prevInventory prevBacklog shipmentReceived
        demandReceived orderAmount).backlog) ∧
    (∀ inventory backlog demand arriving : McD.Triple,
      inventory.Nonneg → backlog.Nonneg → demand.Nonneg → arriving.Nonneg →
      (McD.playerResolve inventory backlog demand arriving).1.Nonneg ∧
      (McD.playerResolve inventory backlog demand arriving).2.Nonneg) ∧
    (∀ (week : ℕ) (sup : Nvidia.SupplierState) (playerOrder aiOrder : ℤ),
      0 ≤ sup.inventory → 0 ≤ sup.backlog → 0 ≤ playerOrder →
      (∀ p ∈ sup.pipeline, 0 ≤ p.amount) →
      0 ≤ (Nvidia.updateSupplier week sup playerOrder aiOrder).inventory ∧
      0 ≤ (Nvidia.updateSupplier week sup playerOrder aiOrder).backlog) := by
  refine ⟨?_, ?_, ?_⟩
  · intro pi pb s d o hpi hpb hs hd
    simp only [BeerGameSim.processTurn]
    omega
  · intro inventory backlog demand arriving hi hb hd ha
    obtain ⟨hi1, hi2, hi3⟩ := hi
    obtain ⟨hb1, hb2, hb3⟩ := hb
    obtain ⟨hd1, hd2, hd3⟩ := hd
    obtain ⟨ha1, ha2, ha3⟩ := ha
    simp only [McD.playerResolve, McD.fulfillItem, McD.Triple.Nonneg]
    refine ⟨⟨?_, ?_, ?_⟩, ?_, ?_, ?_⟩ <;> split <;> simp <;> omega
  · intro week sup playerOrder aiOrder h1 h2 h3 h4
    simp only [Nvidia.updateSupplier]
    omega

/-- Closed witness for the non-negativity theorem, at the equilibrium numbers
of the Beer Game, the initial fast-food DC numbers, and a small NvidiaGame
supplier state. -/
theorem settlement_nonnegative_witness :
    (0 ≤ (BeerGameSim.processTurn 12 0 4 8 4).inventory ∧
      0 ≤ (BeerGameSim.processTurn 12 0 4 8 4).backlog) ∧
    ((McD.playerResolve ⟨1500, 1000, 500⟩ ⟨0, 0, 0⟩ ⟨340, 200, 60⟩ ⟨0, 0, 0⟩).1.Nonneg ∧
      (McD.playerResolve ⟨1500, 1000, 500⟩ ⟨0, 0, 0⟩ ⟨340, 200, 60⟩ ⟨0, 0, 0⟩).2.Nonneg) ∧
    (0 ≤ (Nvidia.updateSupplier 3 ⟨400, 0, [⟨3, 100⟩], 0, 0⟩ 600 500).inventory ∧
      0 ≤ (Nvidia.updateSupplier 3 ⟨400, 0, [⟨3, 100⟩], 0, 0⟩ 600 500).backlog) := by
  refine ⟨?_, ?_, ?_⟩
  · exact settlement_nonnegative.1 12 0 4 8 4 (by decide) (by decide) (by decide) (by decide)
  · exact settlement_nonnegative.2.1 ⟨1500, 1000, 500⟩ ⟨0, 0, 0⟩ ⟨340, 200, 60⟩ ⟨0, 0, 0⟩
      (by decide) (by decide) (by decide) (by decide)
  · exact settlement_nonnegative.2.2 3 ⟨400, 0, [⟨3, 100⟩], 0, 0⟩ 600 500
      (by decide) (by decide) (by decide) (by decide)

section PipelineLemmas

/-- Generic form of the ledger exactness: summing, over all periods below n,
the filtered-by-key releases of a list whose keys all lie below n, recovers
the total amount in the list. -/
theorem sum_filter_key {α : Type} (key : α → ℕ) (amt : α → ℤ) (q : List α) (n : ℕ)
    (h : ∀ e ∈ q, key e < n) :
    ∑ p ∈ Finset.range n, ((q.filter (fun e => decide (key e = p))).map amt).sum
      = (q.map amt).sum := by
  induction q with
  | nil => simp
  | cons e q ih =>
    have he : key e ∈ Finset.range n := Finset.mem_range.mpr (h e (List.mem_cons_self e q))
    have hq : ∀ x ∈ q, key x < n := fun x hx => h x (List.mem_cons_of_mem _ hx)
    have hsplit : ∀ p : ℕ,
        (((e :: q).filter (fun x => decide (key x = p))).map amt).sum
          = (if key e = p then amt e else 0)
            + ((q.filter (fun x => decide (key x = p))).map amt).sum := by
      intro p
      by_cases hp : key e = p <;> simp [List.filter_cons, hp]
    calc ∑ p ∈ Finset.range n, (((e :: q).filter (fun x => decide (key x = p))).map amt).sum
        = ∑ p ∈ Finset.range n, ((if key e = p then amt e else 0)
            + ((q.filter (fun x => decide (key x = p))).map amt).sum) :=
          Finset.sum_congr rfl fun p _ => hsplit p
      _ = (∑ p ∈ Finset.range n, if key e = p then amt e else 0)
            + ∑ p ∈ Finset.range n, ((q.filter (fun x => decide (key x = p))).map amt).sum :=
          Finset.sum_add_distrib
      _ = amt e + (q.map amt).sum := by
          rw [Finset.sum_ite_eq (Finset.range n) (key e) (fun _ => amt e), if_pos he, ih hq]
      _ = ((e :: q).map amt).sum := by simp

/-- A queue with no entry due at w releases nothing under the sum-based
collection. -/
theorem sumDue_eq_zero (q : List McD.QueueEntry) (w : ℤ)
    (h : ∀ p ∈ q, p.weekArrives ≠ w) : McD.sumDue q w = 0 := by
  unfold McD.sumDue
  have : q.filter (fun p => decide (p.weekArrives = w)) = [] := by
    apply List.filter_eq_nil_iff.mpr
    intro p hp
    simpa using h p hp
  rw [this]
  simp

end PipelineLemmas

/-- C3: pipeline exactness.  For the sum-based collection used by the
NvidiaGame and part_001 pipelines, the total released across a horizon
covering every arrival week equals the total scheduled; a scheduled entry is
released at its own arrival period with its full amount and contributes zero
at every other period; collecting from an empty queue yields 0; and the
find-based collection of the fast-food production queue coincides with the
sum-based one whenever no two entries share an arrival week (which holds in
every run, where each week appends a single entry with a fresh arrival
week). -/
theorem pipeline_exactness :
    (∀ (q : List Nvidia.PipelineEntry) (n : ℕ), (∀ e ∈ q, e.arrivalWeek < n) →
      ∑ p ∈ Finset.range n, Nvidia.collectDue q p = Nvidia.totalScheduled q) ∧
    (∀ (q : List P001.ProdEntry) (n : ℕ), (∀ e ∈ q, e.arrivalWeek < n) →
      ∑ p ∈ Finset.range n, P001.collectArriving q p = (q.map (fun p => p.amount)).sum) ∧
    (∀ (e : Nvidia.PipelineEntry) (p : ℕ), p ≠ e.arrivalWeek →
      Nvidia.collectDue [e] p = 0) ∧
    (∀ e : Nvidia.PipelineEntry, Nvidia.collectDue [e] e.arrivalWeek = e.amount) ∧
    (∀ p : ℕ, Nvidia.collectDue [] p = 0) ∧
    (∀ (q : List McD.QueueEntry) (w : ℤ),
      q.Pairwise (fun a b => a.weekArrives ≠ b.weekArrives) →
      McD.findReleaseAmount q w = McD.sumDue q w) := by
  refine ⟨?_, ?_, ?_, ?_, ?_, ?_⟩
  · intro q n h
    exact sum_filter_key (fun p => p.arrivalWeek) (fun p => p.amount) q n h
  · intro q n h
    exact sum_filter_key (fun p => p.arrivalWeek) (fun p => p.amount) q n h
  · intro e p hp
    have h : e.arrivalWeek ≠ p := fun h => hp h.symm
    simp [Nvidia.collectDue, h]
  · intro e
    simp [Nvidia.collectDue]
  · intro p
    rfl
  · intro q w hq
    induction q with
    | nil => rfl
    | cons e q ih =>
      rw [List.pairwise_cons] at hq
      have hsum : McD.sumDue (e :: q) w
          = (if e.weekArrives = w then e.amount else 0) + McD.sumDue q w := by
        by_cases hw : e.weekArrives = w <;> simp [McD.sumDue, List.filter_cons, hw]
      by_cases hw : e.weekArrives = w
      · have hrest : McD.sumDue q w = 0 := by
          apply sumDue_eq_zero
          intro p hp h
          exact hq.1 p hp (by rw [hw, h])
        have hfind : McD.findReleaseAmount (e :: q) w = e.amount := by
          unfold McD.findReleaseAmount McD.findArriving
          rw [List.find?_cons_of_pos _ (by simpa using hw)]
        rw [hfind, hsum, if_pos hw, hrest]
        omega
      · have hfind : McD.findReleaseAmount (e :: q) w = McD.findReleaseAmount q w := by
          unfold McD.findReleaseAmount McD.findArriving
          rw [List.find?_cons_of_neg _ (by simpa using hw)]
        rw [hfind, hsum, if_neg hw, ih hq.2]
        omega

/-- Closed witness for pipeline exactness: a concrete two-entry queue over a
six-week horizon releases exactly its scheduled total. -/
theorem pipeline_exactness_witness :
    ∑ p ∈ Finset.range 6, Nvidia.collectDue [⟨3, 100⟩, ⟨5, 40⟩] p
      = Nvidia.totalScheduled [⟨3, 100⟩, ⟨5, 40⟩] :=
  pipeline_exactness.1 [⟨3, 100⟩, ⟨5, 40⟩] 6 (by decide)

/-- C4 counterexample: the NvidiaGame catch-block fallback returns
incomingDemand + floor(backlog * 0.5) with no clamp, so with a maximal valid
order of 2000 (which the input validator accepts) and a backlog of 2000, the
decide function returns order 3000, strictly above the configured cap
COMPONENT_CAPACITY_PER_WEEK = 2000 - refuting that every invocation stays
within [0, cap]. -/
theorem fallback_exceeds_cap_counterexample :
    Nvidia.validateOrder 2000 = true ∧
    (Nvidia.getAITurn 2000 2000 Nvidia.AIOutcome.failure).order = 3000 ∧
    Nvidia.componentCapacityPerWeek = 2000 ∧
    (Nvidia.getAITurn 2000 2000 Nvidia.AIOutcome.failure).order
      > Nvidia.componentCapacityPerWeek ∧
    (P001.getAITurn ⟨200, 0, []⟩ 50 (P001.AIOutcome.success (-5) "cut orders")).order
      = -5 ∧
    (P001.getAITurn ⟨200, 0, []⟩ 50 (P001.AIOutcome.success (-5) "cut orders")).order
      < 0 := by
  have horder : (Nvidia.getAITurn 2000 2000 Nvidia.AIOutcome.failure).order = 3000 := by
    simp only [Nvidia.getAITurn]
    norm_num
  refine ⟨by decide, horder, rfl, ?_, rfl, by decide⟩
  rw [horder]
  decide

/-- C4 amended: every invocation of a decision policy returns an order and a
rationale without propagating the failure.  On the deterministic fallback
paths (missing key, or a failed / timed-out / malformed remote call) the
order is non-negative whenever the observed demand and backlog are
non-negative, and the part_001 error fallback additionally stays within
[0, ORDER_CAP_PER_COMPONENT]; the NvidiaGame success path clamps the parsed
order into [0, COMPONENT_CAPACITY_PER_WEEK].  However, the NvidiaGame error
fallback is not clamped and can exceed the configured cap, and the success
paths of part_000 and part_001 return the parsed order unchanged, so neither
non-negativity nor any cap is enforced there. -/
theorem policy_fallback_contract :
    (∀ (incomingDemand backlog : ℤ) (outcome : Nvidia.AIOutcome),
      0 ≤ incomingDemand → 0 ≤ backlog →
      0 ≤ (Nvidia.getAITurn incomingDemand backlog outcome).order) ∧
    (∀ (incomingDemand backlog order : ℤ) (reasoning : String),
      (Nvidia.getAITurn incomingDemand backlog
        (Nvidia.AIOutcome.success order reasoning)).order
          ≤ Nvidia.componentCapacityPerWeek) ∧
    (∀ (st : P001.SupplierState) (incomingDemand : ℤ),
      0 ≤ (P001.getAITurn st incomingDemand P001.AIOutcome.noKey).order ∧
      0 ≤ (P001.getAITurn st incomingDemand P001.AIOutcome.failure).order ∧
      (P001.getAITurn st incomingDemand P001.AIOutcome.failure).order ≤ P001.orderCap) ∧
    (∀ (st : McD.SupplierState) (incomingDemand : ℤ), 0 ≤ incomingDemand →
      0 ≤ (McD.getAITurn st incomingDemand McD.AIOutcome.noKey).order ∧
      0 ≤ (McD.getAITurn st incomingDemand McD.AIOutcome.failure).order) ∧
    (∀ (st : P001.SupplierState) (incomingDemand order : ℤ) (reasoning : String),
      (P001.getAITurn st incomingDemand
        (P001.AIOutcome.success order reasoning)).order = order) ∧
    (∀ (st : McD.SupplierState) (incomingDemand order : ℤ) (reasoning : String),
      (McD.getAITurn st incomingDemand
        (McD.AIOutcome.success order reasoning)).order = order) := by
  refine ⟨?_, ?_, ?_, ?_, ?_, ?_⟩
  · intro d b outcome hd hb
    cases outcome with
    | noKey => exact hd
    | success order reasoning => exact le_max_left 0 _
    | failure =>
      simp only [Nvidia.getAITurn]
      have hfloor : (0 : ℤ) ≤ ⌊(b : ℚ) * (1/2)⌋ := by
        apply Int.floor_nonneg.mpr
        positivity
      omega
  · intro d b order reasoning
    simp only [Nvidia.getAITurn]
    exact max_le (by norm_num [Nvidia.componentCapacityPerWeek]) (min_le_right _ _)
  · intro st d
    refine ⟨le_max_left 0 _, ?_, min_le_right _ _⟩
    exact le_min (le_max_left 0 _) (by norm_num [P001.orderCap])
  · intro st d hd
    constructor
    · simp only [McD.getAITurn]
      apply Int.floor_nonneg.mpr
      have : (0 : ℚ) ≤ max 0 ((if st.lastOrderReceived = 0 then (200 : ℚ)
          else (3/2) * (st.lastOrderReceived : ℚ)) - (st.inventory : ℚ) + (st.backlog : ℚ)) :=
        le_max_left 0 _
      linarith
    · exact hd
  · intro st d order reasoning
    rfl
  · intro st d order reasoning
    rfl

/-- Closed witness for the amended policy contract, at concrete states of each
variant. -/
theorem policy_fallback_contract_witness :
    0 ≤ (Nvidia.getAITurn 800 300 Nvidia.AIOutcome.failure).order ∧
    (Nvidia.getAITurn 800 300 (Nvidia.AIOutcome.success 5000 "hoard")).order
      ≤ Nvidia.componentCapacityPerWeek ∧
    0 ≤ (P001.getAITurn ⟨200, 0, []⟩ 50 P001.AIOutcome.failure).order ∧
    (P001.getAITurn ⟨200, 0, []⟩ 50 P001.AIOutcome.failure).order ≤ P001.orderCap ∧
    0 ≤ (McD.getAITurn ⟨3000, 0, [], 0⟩ 340 McD.AIOutcome.noKey).order := by
  refine ⟨?_, ?_, ?_, ?_, ?_⟩
  · exact policy_fallback_contract.1 800 300 Nvidia.AIOutcome.failure (by decide) (by decide)
  · exact policy_fallback_contract.2.1 800 300 5000 "hoard"
  · exact (policy_fallback_contract.2.2.1 ⟨200, 0, []⟩ 50).2.1
  · exact (policy_fallback_contract.2.2.1 ⟨200, 0, []⟩ 50).2.2
  · exact (policy_fallback_contract.2.2.2.1 ⟨3000, 0, [], 0⟩ 340 (by decide)).1

/-- C5: in BeerGame.jsx the human input gate does drop a negative order, but
the AI play path hands decision.order to processTurn unchanged, so a remote
decision of -5 reaches the state machine and is committed to history as
orderPlaced = -5: the claim that the state-machine transition is never invoked
with a negative order is contradicted by the code on its AI path. -/
theorem negative_ai_order_reaches_state_machine :
    BeerGameSim.submitTurnGate (-5) = none ∧
    BeerGameSim.aiOrderToStateMachine (-5) = -5 ∧
    (BeerGameSim.processTurn 12 0 4 4
      (BeerGameSim.aiOrderToStateMachine (-5))).orderPlaced = -5 ∧
    (BeerGameSim.processTurn 12 0 4 4
      (BeerGameSim.aiOrderToStateMachine (-5))).orderPlaced < 0 := by
  refine ⟨rfl, rfl, rfl, by decide⟩

/-- C6 counterexample: running the fast-food orchestrator from week 1, the
start-turn guard (week >= MAX_WEEKS) and the game-over trigger (nextWeek =
MAX_WEEKS) stop the run after resolving week 19: week 20 is never resolved,
refuting that every variant resolves exactly 20 periods. -/
theorem mcd_period_twenty_never_resolved :
    20 ∉ Runs.resolvedWeeks Runs.mcdStep 40 Runs.initState ∧
    (Runs.resolvedWeeks Runs.mcdStep 40 Runs.initState).length = 19 := by
  decide

/-- C6 amended: the Beer Game, NvidiaGame and part_001 orchestrators resolve
exactly the 20 periods 1..20 and then no further period (more fuel resolves
nothing more); the fast-food orchestrator resolves only the 19 periods 1..19,
because its turn guard blocks at week >= 20 and its game-over flag is set when
the advanced week reaches 20. -/
theorem horizon_resolved_weeks :
    Runs.resolvedWeeks Runs.beerStep 40 Runs.initState = List.range' 1 20 ∧
    Runs.resolvedWeeks Runs.nvidiaStep 40 Runs.initState = List.range' 1 20 ∧
    Runs.resolvedWeeks Runs.p001Step 40 Runs.initState = List.range' 1 20 ∧
    Runs.resolvedWeeks Runs.mcdStep 40 Runs.initState = List.range' 1 19 ∧
    Runs.resolvedWeeks Runs.beerStep 100 Runs.initState
      = Runs.resolvedWeeks Runs.beerStep 40 Runs.initState ∧
    Runs.resolvedWeeks Runs.nvidiaStep 100 Runs.initState
      = Runs.resolvedWeeks Runs.nvidiaStep 40 Runs.initState ∧
    Runs.resolvedWeeks Runs.p001Step 100 Runs.initState
      = Runs.resolvedWeeks Runs.p001Step 40 Runs.initState ∧
    Runs.resolvedWeeks Runs.mcdStep 100 Runs.initState
      = Runs.resolvedWeeks Runs.mcdStep 40 Runs.initState := by
  refine ⟨?_, ?_, ?_, ?_, ?_, ?_, ?_, ?_⟩ <;> decide

/-- C7 counterexample: in the NvidiaGame player settlement, the CoWoS-side
inputs (prior inventory 100, arriving 0, demand 50, prior backlog 0) are
identical in both states, yet the CoWoS post-inventory differs (100 vs 50)
because production is the joint min of the two component inventories - so a
kind's post-state does NOT depend only on that kind's own inputs. -/
theorem per_kind_independence_counterexample :
    (Nvidia.playerSettle ⟨100, 0⟩ 0 0 50 0).inventory.cowos = 100 ∧
    (Nvidia.playerSettle ⟨100, 100⟩ 0 0 50 0).inventory.cowos = 50 ∧
    (Nvidia.playerSettle ⟨100, 0⟩ 0 0 50 0).inventory.cowos ≠
      (Nvidia.playerSettle ⟨100, 100⟩ 0 0 50 0).inventory.cowos := by
  refine ⟨by decide, by decide, by decide⟩

/-- C7 amended: the fast-food DC settlement does iterate independently over
the resource kinds: each kind's post-inventory and post-backlog is unchanged
when only the other kinds' inputs change; the NVIDIA-variant player echelon
instead couples the kinds through joint production (see the
counterexample). -/
theorem mcd_per_kind_independent :
    (∀ i b d a i2 b2 d2 a2 : McD.Triple,
      i.buns = i2.buns → b.buns = b2.buns → d.buns = d2.buns → a.buns = a2.buns →
      (McD.playerResolve i b d a).1.buns = (McD.playerResolve i2 b2 d2 a2).1.buns ∧
      (McD.playerResolve i b d a).2.buns = (McD.playerResolve i2 b2 d2 a2).2.buns) ∧
    (∀ i b d a i2 b2 d2 a2 : McD.Triple,
      i.beef = i2.beef → b.beef = b2.beef → d.beef = d2.beef → a.beef = a2.beef →
      (McD.playerResolve i b d a).1.beef = (McD.playerResolve i2 b2 d2 a2).1.beef ∧
      (McD.playerResolve i b d a).2.beef = (McD.playerResolve i2 b2 d2 a2).2.beef) ∧
    (∀ i b d a i2 b2 d2 a2 : McD.Triple,
      i.fish = i2.fish → b.fish = b2.fish → d.fish = d2.fish → a.fish = a2.fish →
      (McD.playerResolve i b d a).1.fish = (McD.playerResolve i2 b2 d2 a2).1.fish ∧
      (McD.playerResolve i b d a).2.fish = (McD.playerResolve i2 b2 d2 a2).2.fish) := by
  refine ⟨?_, ?_, ?_⟩ <;>
  · intro i b d a i2 b2 d2 a2 h1 h2 h3 h4
    simp only [McD.playerResolve]
    rw [h1, h2, h3, h4]
    exact ⟨rfl, rfl⟩

/-- Closed witness for per-kind independence of the fast-food DC: changing
only the beef and fish inputs leaves the buns post-state unchanged. -/
theorem mcd_per_kind_independent_witness :
    (McD.playerResolve ⟨1500, 1000, 500⟩ ⟨0, 0, 0⟩ ⟨340, 200, 60⟩ ⟨0, 0, 0⟩).1.buns
      = (McD.playerResolve ⟨1500, 0, 0⟩ ⟨0, 999, 999⟩ ⟨340, 1, 1⟩ ⟨0, 7, 7⟩).1.buns ∧
    (McD.playerResolve ⟨1500, 1000, 500⟩ ⟨0, 0, 0⟩ ⟨340, 200, 60⟩ ⟨0, 0, 0⟩).2.buns
      = (McD.playerResolve ⟨1500, 0, 0⟩ ⟨0, 999, 999⟩ ⟨340, 1, 1⟩ ⟨0, 7, 7⟩).2.buns :=
  mcd_per_kind_independent.1 ⟨1500, 1000, 500⟩ ⟨0, 0, 0⟩ ⟨340, 200, 60⟩ ⟨0, 0, 0⟩
    ⟨1500, 0, 0⟩ ⟨0, 999, 999⟩ ⟨340, 1, 1⟩ ⟨0, 7, 7⟩ rfl rfl rfl rfl

/-- C8: the combined-pool scenario.  A Tyson state with inventory 50, zero
prior backlog and no arriving production, facing a combined order of 80 split
60 beef / 20 fish, ships exactly floor(60 * 50/80) = 37 beef and
floor(20 * 50/80) = 12 fish. -/
theorem proportional_allocation_scenario :
    (McD.tysonResolve 1 ⟨50, 0, [], 0⟩ 0 60 20).shippedBeef = ⌊(60 : ℚ) * (50 / 80)⌋ ∧
    (McD.tysonResolve 1 ⟨50, 0, [], 0⟩ 0 60 20).shippedFish = ⌊(20 : ℚ) * (50 / 80)⌋ ∧
    (McD.tysonResolve 1 ⟨50, 0, [], 0⟩ 0 60 20).shippedBeef = 37 ∧
    (McD.tysonResolve 1 ⟨50, 0, [], 0⟩ 0 60 20).shippedFish = 12 := by
  have h : McD.tysonResolve 1 ⟨50, 0, [], 0⟩ 0 60 20
      = { newState := ⟨0, 30, [⟨4, 0⟩], 80⟩, shippedAmount := 50,
          shippedBeef := ⌊(60 : ℚ) * ((50 : ℚ) / 80)⌋,
          shippedFish := ⌊(20 : ℚ) * ((50 : ℚ) / 80)⌋ } := by
    simp only [McD.tysonResolve, McD.processSupplier, McD.availableAfterArrival,
      McD.findArriving, McD.serviceLevel, McD.productionDelay]
    norm_num
  rw [h]
  refine ⟨by norm_num, by norm_num, by norm_num, by norm_num⟩

/-- C9: in the Beer Game, the manufacturer (roleIndex 3) is self-supplied
through the shipping-delay window alone: whenever the history holds an entry
for the manufacturer at week t - 2, the incoming shipment at week t is exactly
that entry's own orderPlaced - no order-transmission or production delay is
added on top of the shipping delay. -/
theorem manufacturer_self_supply (history : List BeerGameSim.HistoryEntry)
    (t : ℤ) (e : BeerGameSim.HistoryEntry)
    (h : BeerGameSim.getHistoryEntry history (t - 2) BeerGameSim.Role.manufacturer = some e) :
    BeerGameSim.getIncomingShipment history 3 t = e.orderPlaced ∧
    BeerGameSim.shippingDelay = 2 := by
  constructor
  · simp only [BeerGameSim.getIncomingShipment, BeerGameSim.shippingDelay]
    rw [if_pos trivial, h]
  · rfl

/-- Closed witness: with a single manufacturer entry at week 5 ordering 7
units, the incoming shipment at week 7 is 7. -/
theorem manufacturer_self_supply_witness :
    BeerGameSim.getIncomingShipment
      [⟨5, BeerGameSim.Role.manufacturer, 12, 0, 7, 4⟩] 3 7 = 7 ∧
    BeerGameSim.shippingDelay = 2 :=
  manufacturer_self_supply [⟨5, BeerGameSim.Role.manufacturer, 12, 0, 7, 4⟩] 7
    ⟨5, BeerGameSim.Role.manufacturer, 12, 0, 7, 4⟩ (by decide)

section AllocationLemmas

/-- The two floored per-kind shipments of the service-level allocation are
bounded by the pooled shipped amount. -/
theorem floor_ratio_sum_le (b f owed shipped : ℤ) (hb : 0 ≤ b) (hf : 0 ≤ f)
    (hbf : b + f ≤ owed) (hs : 0 ≤ shipped) (_hso : shipped ≤ owed) :
    ⌊(b : ℚ) * McD.serviceLevel shipped owed⌋
      + ⌊(f : ℚ) * McD.serviceLevel shipped owed⌋ ≤ shipped := by
  by_cases howed : owed > 0
  · have howq : (0 : ℚ) < (owed : ℚ) := by exact_mod_cast howed
    have hsl : McD.serviceLevel shipped owed = (shipped : ℚ) / (owed : ℚ) := by
      simp [McD.serviceLevel, howed]
    have hslnn : (0 : ℚ) ≤ (shipped : ℚ) / (owed : ℚ) := by positivity
    have hsum : (b : ℚ) * ((shipped : ℚ) / (owed : ℚ))
        + (f : ℚ) * ((shipped : ℚ) / (owed : ℚ)) ≤ (shipped : ℚ) := by
      have hbfq : (b : ℚ) + (f : ℚ) ≤ (owed : ℚ) := by exact_mod_cast hbf
      have h1 : (b : ℚ) * ((shipped : ℚ) / (owed : ℚ))
          + (f : ℚ) * ((shipped : ℚ) / (owed : ℚ))
          = ((b : ℚ) + (f : ℚ)) * ((shipped : ℚ) / (owed : ℚ)) := by ring
      have h2 : ((b : ℚ) + (f : ℚ)) * ((shipped : ℚ) / (owed : ℚ))
          ≤ (owed : ℚ) * ((shipped : ℚ) / (owed : ℚ)) :=
        mul_le_mul_of_nonneg_right hbfq hslnn
      have h3 : (owed : ℚ) * ((shipped : ℚ) / (owed : ℚ)) = (shipped : ℚ) := by
        field_simp
      rw [h1]
      rw [h3] at h2
      exact h2
    have hfl : ((⌊(b : ℚ) * ((shipped : ℚ) / (owed : ℚ))⌋
        + ⌊(f : ℚ) * ((shipped : ℚ) / (owed : ℚ))⌋ : ℤ) : ℚ) ≤ (shipped : ℚ) := by
      push_cast
      calc ((⌊(b : ℚ) * ((shipped : ℚ) / (owed : ℚ))⌋ : ℚ)
            + (⌊(f : ℚ) * ((shipped : ℚ) / (owed : ℚ))⌋ : ℚ))
          ≤ (b : ℚ) * ((shipped : ℚ) / (owed : ℚ))
            + (f : ℚ) * ((shipped : ℚ) / (owed : ℚ)) :=
            add_le_add (Int.floor_le _) (Int.floor_le _)
        _ ≤ (shipped : ℚ) := hsum
    rw [hsl]
    exact_mod_cast hfl
  · have hb0 : b = 0 := by omega
    have hf0 : f = 0 := by omega
    subst hb0
    subst hf0
    simp
    exact hs

end AllocationLemmas

/-- C10: the combined-pool allocation never over-ships, and loses quantity.
In general (non-negative orders, backlog and post-arrival inventory) the
floored per-kind shipments sum to at most the pooled shipped amount, the
quantity deducted from the supplier inventory is exactly the pooled shipped
amount, and the backlog is credited as if the whole pooled amount had been
delivered.  At the concrete scenario (inventory 50, orders 60/20, backlog 0),
the per-kind shipments sum to 49 while 50 is deducted: one unit is delivered
to no downstream shipment, and it is returned to neither the inventory (0)
nor the backlog (30 = 80 - 50). -/
theorem allocation_never_overships :
    (∀ (week : ℤ) (state : McD.SupplierState) (production beefOrder fishOrder : ℤ),
      0 ≤ beefOrder → 0 ≤ fishOrder → 0 ≤ state.backlog →
      0 ≤ McD.availableAfterArrival state week →
      (McD.tysonResolve week state production beefOrder fishOrder).shippedBeef
          + (McD.tysonResolve week state production beefOrder fishOrder).shippedFish
          ≤ (McD.tysonResolve week state production beefOrder fishOrder).shippedAmount ∧
      McD.availableAfterArrival state week
          - (McD.tysonResolve week state production beefOrder fishOrder).newState.inventory
          = (McD.tysonResolve week state production beefOrder fishOrder).shippedAmount ∧
      (McD.tysonResolve week state production beefOrder fishOrder).newState.backlog
          = beefOrder + fishOrder + state.backlog
            - (McD.tysonResolve week state production beefOrder fishOrder).shippedAmount) ∧
    ((McD.tysonResolve 1 ⟨50, 0, [], 0⟩ 0 60 20).shippedBeef
        + (McD.tysonResolve 1 ⟨50, 0, [], 0⟩ 0 60 20).shippedFish = 49 ∧
      (McD.tysonResolve 1 ⟨50, 0, [], 0⟩ 0 60 20).shippedAmount = 50 ∧
      (McD.tysonResolve 1 ⟨50, 0, [], 0⟩ 0 60 20).newState.inventory = 0 ∧
      (McD.tysonResolve 1 ⟨50, 0, [], 0⟩ 0 60 20).newState.backlog = 30) := by
  constructor
  · intro week state production beefOrder fishOrder hbeef hfish hback hA
    simp only [McD.tysonResolve, McD.processSupplier]
    by_cases hcase : McD.availableAfterArrival state week ≥ beefOrder + fishOrder + state.backlog
    · rw [if_pos hcase]
      refine ⟨?_, by ring, by ring⟩
      exact floor_ratio_sum_le beefOrder fishOrder (beefOrder + fishOrder + state.backlog)
        (beefOrder + fishOrder + state.backlog) hbeef hfish (by omega) (by omega) le_rfl
    · rw [if_neg hcase]
      push_neg at hcase
      refine ⟨?_, by ring, by ring⟩
      exact floor_ratio_sum_le beefOrder fishOrder (beefOrder + fishOrder + state.backlog)
        (McD.availableAfterArrival state week) hbeef hfish (by omega) hA hcase.le
  · have h : McD.tysonResolve 1 ⟨50, 0, [], 0⟩ 0 60 20
        = { newState := ⟨0, 30, [⟨4, 0⟩], 80⟩, shippedAmount := 50,
            shippedBeef := ⌊(60 : ℚ) * ((50 : ℚ) / 80)⌋,
            shippedFish := ⌊(20 : ℚ) * ((50 : ℚ) / 80)⌋ } := by
      simp only [McD.tysonResolve, McD.processSupplier, McD.availableAfterArrival,
        McD.findArriving, McD.serviceLevel, McD.productionDelay]
      norm_num
    rw [h]
    refine ⟨by norm_num, rfl, rfl, rfl⟩

/-- Closed witness for the allocation bound, at the concrete scenario state. -/
theorem allocation_never_overships_witness :
    (McD.tysonResolve 1 ⟨50, 0, [], 0⟩ 0 60 20).shippedBeef
        + (McD.tysonResolve 1 ⟨50, 0, [], 0⟩ 0 60 20).shippedFish
        ≤ (McD.tysonResolve 1 ⟨50, 0, [], 0⟩ 0 60 20).shippedAmount ∧
    McD.availableAfterArrival ⟨50, 0, [], 0⟩ 1
        - (McD.tysonResolve 1 ⟨50, 0, [], 0⟩ 0 60 20).newState.inventory
        = (McD.tysonResolve 1 ⟨50, 0, [], 0⟩ 0 60 20).shippedAmount :=
  ⟨(allocation_never_overships.1 1 ⟨50, 0, [], 0⟩ 0 60 20
      (by decide) (by decide) (by decide) (by decide)).1,
    (allocation_never_overships.1 1 ⟨50, 0, [], 0⟩ 0 60 20
      (by decide) (by decide) (by decide) (by decide)).2.1⟩
